import Mathlib

/-!
Verification of the recurrence-generation and reconciliation engine of
django-icekit (app icekit_events, file icekit_events/models.py).

The embedding models datetimes as naive local timestamps in integer
microseconds, Django model rows as Lean structures, and the database as
explicit lists of rows. Operations that the source runs on a freshly
loaded model instance (the signal handler in models.py builds a fresh
instance for every regeneration) are modelled as pure functions on the
database state; the memoised derived views of an event together with
invalidate_caches then coincide with fresh reads, which is how they are
modelled here.
-/

namespace IcekitEvents

/-- One microsecond, the unit of all datetime arithmetic in this model. -/
def microsecond : Int := 1

/-- One second in microseconds (timedelta(seconds=1)). -/
def second : Int := 1000000

/-- One day in microseconds (timedelta(days=1)). -/
def day : Int := 86400000000

/-- Modelled from the spec: appsettings.REPEAT_LIMIT (icekit_events/appsettings.py
is not under src/), the configured default horizon for unbounded rules;
the spec and the tests both fix it at 13 weeks. -/
def REPEAT_LIMIT : Int := 13 * 7 * day

/-- Modelled from the spec: icekit_events.utils.timeutils.coerce_naive
(not under src/) converts an aware datetime to the naive local wall-clock
representation. All datetimes of this model are already naive local
timestamps, so the coercion is the identity. -/
def coerce_naive (t : Int) : Int := t

/-- Modelled from the spec: icekit_events.utils.timeutils.zero_datetime
(not under src/) normalises a datetime to the 00:00:00.000000 boundary of
its day (spec section 3, all-day normalisation). -/
def zero_datetime (t : Int) : Int := t - t % day

/-- Python truthiness of an optional text field: None and the empty string
are falsy (used for recurrence_rule and cancel_reason checks). -/
def truthy : Option String → Bool
  | none => false
  | some s => s ≠ ""

/-- Row of icekit_events.models.EventBase, restricted to the fields the
reconciliation engine reads: identity, the part_of parent and the
derived_from origin. -/
structure EventBase where
  id : Nat
  part_of : Option Nat
  derived_from : Option Nat
deriving DecidableEq, Repr

/-- Row of icekit_events.models.EventRepeatsGenerator. The field end_
embeds the source field named end (a Lean keyword). -/
structure EventRepeatsGenerator where
  id : Nat
  eventId : Nat
  recurrence_rule : Option String
  start : Int
  end_ : Int
  is_all_day : Bool
  repeat_end : Option Int
deriving DecidableEq, Repr

/-- AbstractEventRepeatsGenerator.duration: the timedelta end - start. -/
def duration (g : EventRepeatsGenerator) : Int := g.end_ - g.start

/-- Row of icekit_events.models.Occurrence. The transient instance
attribute _flag_user_modification is carried as flag_user_modification;
it is never persisted (see db rows below). end_ embeds the field end. -/
structure Occurrence where
  id : Nat
  eventId : Nat
  generator : Option Nat
  start : Int
  end_ : Int
  is_all_day : Bool
  is_protected_from_regeneration : Bool
  is_cancelled : Bool
  is_hidden : Bool
  cancel_reason : Option String
  original_start : Option Int
  original_end : Option Int
  flag_user_modification : Bool
deriving DecidableEq, Repr

/-- The persistence collaborator state: rows of the three model tables
plus a fresh primary-key counter. -/
structure DB where
  events : List EventBase
  generators : List EventRepeatsGenerator
  occurrences : List Occurrence
  nextId : Nat
deriving DecidableEq, Repr

/-- Queryset event.occurrences.all(): the rows of the given event, in
database order. -/
def own_occurrences (db : DB) (evId : Nat) : List Occurrence :=
  db.occurrences.filter (fun o => o.eventId == evId)

/-- Queryset event.repeat_generators.all(). -/
def repeat_generators (db : DB) (evId : Nat) : List EventRepeatsGenerator :=
  db.generators.filter (fun g => g.eventId == evId)

/-- Row lookup of an event by primary key. -/
def lookup_event (db : DB) (evId : Nat) : Option EventBase :=
  db.events.find? (fun e => e.id == evId)

/-- EventBase.visible_part_of: the part_of parent passed through the
publishing collaborator. Modelled from the spec: get_visible of the
black-box publishing service (not under src/) resolves an event to its
visible version; the model identifies an event with its visible version,
so the property returns the parent itself. -/
def visible_part_of (db : DB) (evId : Nat) : Option Nat :=
  (lookup_event db evId).bind (fun e => e.part_of)

/-- EventBase.occurrence_list with explicit recursion fuel on the part_of
chain: own occurrences if any exist, else the list of the visible parent,
else empty. -/
def occurrence_listFuel (db : DB) : Nat → Nat → List Occurrence
  | 0, _ => []
  | fuel + 1, evId =>
    let o := own_occurrences db evId
    if o.isEmpty then
      match visible_part_of db evId with
      | some p => occurrence_listFuel db fuel p
      | none => []
    else o

/-- EventBase.occurrence_list: the effective timeline of the event. A
part_of chain without repetition is shorter than the event table, so the
fuel covers every chain the source (which recurses unboundedly) resolves. -/
def occurrence_list (db : DB) (evId : Nat) : List Occurrence :=
  occurrence_listFuel db (db.events.length + 1) evId

/-- get_occurrence_times_for_event (models.py:946): the identity sets of
naive original start and end datetimes of the effective timeline, with
original_start or start and original_end or end fallback. Sets are
embedded as lists used only through membership. -/
def get_occurrence_times_for_event (db : DB) (evId : Nat) :
    List Int × List Int :=
  ((occurrence_list db evId).map
      (fun o => coerce_naive (o.original_start.getD o.start)),
   (occurrence_list db evId).map
      (fun o => coerce_naive (o.original_end.getD o.end_)))

/-! ## Generator expansion (models.py:676-799) -/

/-- The complete rule spec built by _build_complete_rrule: a DTSTART
anchor together with either an RDATE equal to the anchor (no rule text)
or the stored rule text with an inclusive UNTIL bound. -/
inductive RRuleSpec where
  | rdate (dtstart : Int)
  | rrule (dtstart : Int) (rule : String) (untilIncl : Int)
deriving DecidableEq, Repr

/-- The rule evaluator collaborator (spec section 6): given rule text, the
DTSTART anchor and the inclusive UNTIL bound, it yields the deterministic
increasing sequence of naive start times the rule generates. -/
def RuleEvaluator : Type := String → Int → Int → List Int

/-- AbstractEventRepeatsGenerator._build_complete_rrule (models.py:723):
default start_dt to self.start and until to self.repeat_end or
now + REPEAT_LIMIT; without rule text emit an RDATE of the anchor; with
rule text fake an exclusive UNTIL by subtracting one microsecond, or for
all-day generators adding one day minus one microsecond. -/
def _build_complete_rrule (g : EventRepeatsGenerator) (now : Int)
    (start_dt? until? : Option Int) : RRuleSpec :=
  let start_dt := start_dt?.getD g.start
  let untl := until?.getD (g.repeat_end.getD (now + REPEAT_LIMIT))
  if !(truthy g.recurrence_rule) then
    .rdate start_dt
  else
    let u := if g.is_all_day then untl + (day - microsecond)
             else untl - microsecond
    .rrule start_dt g.recurrence_rule.get! u

/-- AbstractEventRepeatsGenerator.get_rruleset (models.py:713): the
members of the rruleset parsed from the complete rule spec, through the
rule evaluator capability. -/
def get_rruleset (E : RuleEvaluator) (g : EventRepeatsGenerator)
    (now : Int) (until? : Option Int) : List Int :=
  match _build_complete_rrule g now none until? with
  | .rdate d => [d]
  | .rrule d r u => E r d u

/-- rruleset.between(lo, hi) of the dateutil collaborator: the members
strictly between the two bounds (both exclusive). -/
def rruleset_between (members : List Int) (lo hi : Int) : List Int :=
  members.filter (fun t => decide (lo < t) && decide (t < hi))

/-- AbstractEventRepeatsGenerator.generate (models.py:676): resolve the
bound (the provided until; else repeat_end; else now + REPEAT_LIMIT, with
the extra day for all-day generators), look the rruleset up between
start - 1 second and the bound, and pair each start with
start + (self.duration or timedelta(days=1)). -/
def generate (E : RuleEvaluator) (g : EventRepeatsGenerator) (now : Int)
    (until? : Option Int) : List (Int × Int) :=
  let start_dt := g.start - second
  let untl : Int :=
    match until? with
    | some u => u
    | none =>
      let u := match g.repeat_end with
               | some r => r
               | none => now + REPEAT_LIMIT
      if g.is_all_day then u + day else u
  let start_dt := coerce_naive start_dt
  let untl := coerce_naive untl
  let occurrence_duration := if duration g ≠ 0 then duration g else day
  (rruleset_between (get_rruleset E g now (some untl)) start_dt untl).map
    (fun s => (s, s + occurrence_duration))

/-- The exceptions raised by AbstractEventRepeatsGenerator.save. -/
inductive GeneratorException where
  | endBeforeStart
  | repeatEndWithoutRule
  | repeatEndBeforeStart
  | allDayStartNotMidnight
deriving DecidableEq, Repr

/-- AbstractEventRepeatsGenerator.save (models.py:753): validate the
generator invariants eagerly and normalise all-day bounds to day
boundaries, with end advanced to the last microsecond of its day. -/
def generator_save (g : EventRepeatsGenerator) :
    Except GeneratorException EventRepeatsGenerator :=
  if g.end_ < g.start then
    .error .endBeforeStart
  else if g.repeat_end.isSome && !(truthy g.recurrence_rule) then
    .error .repeatEndWithoutRule
  else if g.repeat_end.isSome && g.repeat_end.get! < g.start then
    .error .repeatEndBeforeStart
  else if g.is_all_day && coerce_naive g.start % day ≠ 0 then
    .error .allDayStartNotMidnight
  else if g.is_all_day then
    .ok { g with start := zero_datetime g.start,
                 end_ := zero_datetime g.end_ + (day - microsecond) }
  else
    .ok g

/-! ## Occurrence persistence (models.py:906-926) -/

/-- AbstractOccurrence.save (models.py:906): when the transient user
modification flag is set, protect the occurrence and cancel it exactly
when a cancel reason is present; normalise all-day bounds to day
boundaries; set original start and end the first time, never after. -/
def occurrence_save (o : Occurrence) : Occurrence :=
  let o := if o.flag_user_modification then
      { o with is_protected_from_regeneration := true,
               is_cancelled := truthy o.cancel_reason }
    else o
  let o := if o.is_all_day then
      { o with start := zero_datetime o.start, end_ := zero_datetime o.end_ }
    else o
  let o := if o.original_start.isNone then
      { o with original_start := some o.start } else o
  let o := if o.original_end.isNone then
      { o with original_end := some o.end_ } else o
  o

/-- Occurrence.objects.create: run save on the instance under a fresh
primary key and append the row. The transient user-modification flag is
an instance attribute, not a column, so the stored row carries it unset. -/
def db_create_occurrence (db : DB) (mk : Nat → Occurrence) : DB :=
  { db with
      occurrences := db.occurrences ++
        [{ (occurrence_save (mk db.nextId)) with flag_user_modification := false }],
      nextId := db.nextId + 1 }

/-- Persisting an existing occurrence instance: save it and overwrite the
row with its primary key; the transient flag is not a column. -/
def db_update_occurrence (db : DB) (o : Occurrence) : DB :=
  let row := { (occurrence_save o) with flag_user_modification := false }
  let rows := db.occurrences.map (fun x => if x.id == row.id then row else x)
  { db with occurrences := rows }

/-! ## Reconciliation (models.py:293-414) -/

/-- EventBase.add_occurrence (models.py:293): a manually added occurrence,
protected, with no generator, and end defaulting to start. -/
def add_occurrence (db : DB) (evId : Nat) (start : Int)
    (end? : Option Int) : DB :=
  db_create_occurrence db (fun oid =>
    { id := oid, eventId := evId, generator := none,
      start := start, end_ := end?.getD start,
      is_all_day := false,
      is_protected_from_regeneration := true, is_cancelled := false,
      is_hidden := false, cancel_reason := none,
      original_start := none, original_end := none,
      flag_user_modification := false })

/-- EventBase.cancel_occurrence (models.py:306): a silent no-op when the
occurrence is not in the effective timeline (membership by primary key,
as Django model equality compares pk); otherwise protect, cancel,
optionally hide, store the reason and persist. -/
def cancel_occurrence (db : DB) (evId : Nat) (occ : Occurrence)
    (hide_cancelled_occurrence : Bool) (reason : String) : DB :=
  if (occurrence_list db evId).all (fun o => o.id != occ.id) then db
  else
    db_update_occurrence db
      { occ with is_protected_from_regeneration := true,
                 is_cancelled := true,
                 is_hidden := hide_cancelled_occurrence,
                 cancel_reason := some reason }

/-- EventBase.missing_occurrence_data (models.py:355): expand every
generator of the event and skip any candidate whose start is in the
identity start set or whose end is in the identity end set. -/
def missing_occurrence_data (E : RuleEvaluator) (db : DB) (evId : Nat)
    (now : Int) (until? : Option Int) :
    List (Int × Int × EventRepeatsGenerator) :=
  let existing := get_occurrence_times_for_event db evId
  (repeat_generators db evId).flatMap (fun g =>
    (generate E g now until?).filterMap (fun se =>
      if se.1 ∈ existing.1 ∨ se.2 ∈ existing.2 then none
      else some (se.1, se.2, g)))

/-- The row Occurrence.objects.create receives inside extend_occurrences
(models.py:392): start, end and the original copies from the candidate,
the source generator and its all-day flag, everything else defaulted. -/
def new_occurrence (evId : Nat) (item : Int × Int × EventRepeatsGenerator)
    (oid : Nat) : Occurrence :=
  { id := oid, eventId := evId, generator := some item.2.2.id,
    start := item.1, end_ := item.2.1,
    is_all_day := item.2.2.is_all_day,
    is_protected_from_regeneration := false, is_cancelled := false,
    is_hidden := false, cancel_reason := none,
    original_start := some item.1, original_end := some item.2.1,
    flag_user_modification := false }

/-- The creation loop of extend_occurrences: one created row per yielded
candidate, in order. -/
def create_missing (evId : Nat) : DB →
    List (Int × Int × EventRepeatsGenerator) → DB
  | db, [] => db
  | db, item :: rest =>
    create_missing evId (db_create_occurrence db (new_occurrence evId item)) rest

/-- EventBase.extend_occurrences (models.py:377): materialise every
candidate from missing_occurrence_data and return how many were created. -/
def extend_occurrences (E : RuleEvaluator) (db : DB) (evId : Nat)
    (now : Int) (until? : Option Int) : DB × Nat :=
  let missing := missing_occurrence_data E db evId now until?
  (create_missing evId db missing, missing.length)

/-- Modelled from the spec: OccurrenceManager.regeneratable
(icekit_events/managers.py is not under src/) — spec section 4.3
classifies an occurrence as regeneratable exactly when it is generated
(generator not null) and unprotected. -/
def regeneratable (o : Occurrence) : Bool :=
  o.generator.isSome && !o.is_protected_from_regeneration

/-- The bulk delete self.occurrences.regeneratable().delete() that opens
regenerate_occurrences. -/
def delete_regeneratable (db : DB) (evId : Nat) : DB :=
  { db with occurrences :=
      db.occurrences.filter (fun o => !(o.eventId == evId && regeneratable o)) }

/-- EventBase.regenerate_occurrences (models.py:406): delete every
regeneratable occurrence of the event, then extend. -/
def regenerate_occurrences (E : RuleEvaluator) (db : DB) (evId : Nat)
    (now : Int) (until? : Option Int) : DB :=
  (extend_occurrences E (delete_regeneratable db evId) evId now until?).1

/-! ## Timeline cloning (models.py:324-353 and 420-439) -/

/-- One iteration of the occurrence loop of clone_event_relationships:
reset the primary key, point the copy at the destination event and save. -/
def clone_occurrence_to (db : DB) (dstId : Nat) (o : Occurrence) : DB :=
  db_create_occurrence db (fun oid => { o with id := oid, eventId := dstId })

/-- The occurrence loop of clone_event_relationships, over the
occurrences that were not generated or are protected. -/
def clone_occurrences_loop (dstId : Nat) : DB → List Occurrence → DB
  | db, [] => db
  | db, o :: rest =>
    clone_occurrences_loop dstId (clone_occurrence_to db dstId o) rest

/-- One iteration of the generator loop of clone_event_relationships:
reset the primary key, point the copy at the destination and save, which
validates the generator and fires the post_save signal
regenerate_event_occurrences (models.py:1011) on the destination event. -/
def clone_generator_to (E : RuleEvaluator) (db : DB) (dstId : Nat)
    (g : EventRepeatsGenerator) (now : Int) :
    Except GeneratorException DB := do
  let g2 ← generator_save { g with id := db.nextId, eventId := dstId }
  let db := { db with generators := db.generators ++ [g2],
                      nextId := db.nextId + 1 }
  pure (regenerate_occurrences E db dstId now none)

/-- The generator loop of clone_event_relationships. -/
def clone_generators_loop (E : RuleEvaluator) (dstId : Nat) (now : Int) :
    DB → List EventRepeatsGenerator → Except GeneratorException DB
  | db, [] => .ok db
  | db, g :: rest => do
    let db2 ← clone_generator_to E db dstId g now
    clone_generators_loop E dstId now db2 rest

/-- EventBase.clone_event_relationships (models.py:420): clone the
occurrences that were not generated or were user-modified first, then
clone the generators (whose saves regenerate the destination). -/
def clone_event_relationships (E : RuleEvaluator) (db : DB)
    (srcId dstId : Nat) (now : Int) : Except GeneratorException DB :=
  let db1 := clone_occurrences_loop dstId db
    (db.occurrences.filter (fun o =>
      o.eventId == srcId && (o.generator.isNone || o.is_protected_from_regeneration)))
  clone_generators_loop E dstId now db1 (repeat_generators db1 srcId)

/-- EventBase.make_variation (models.py:324): create the variation event
derived from this one, clone the timeline onto it, assign
self.end_repeat (an attribute that is not a model field of EventBase, so
the assignment is never persisted and leaves the database unchanged),
delete the own occurrences starting at or after the split occurrence
start, and return the variation. -/
def make_variation (E : RuleEvaluator) (db : DB) (evId : Nat)
    (occ : Occurrence) (now : Int) :
    Except GeneratorException (DB × Nat) := do
  let varId := db.nextId
  let db := { db with
      events := db.events ++ [{ id := varId, part_of := none,
                                derived_from := some evId }],
      nextId := db.nextId + 1 }
  let db ← clone_event_relationships E db evId varId now
  let kept := db.occurrences.filter
    (fun o => !(o.eventId == evId && decide (occ.start ≤ o.start)))
  let db := { db with occurrences := kept }
  pure (db, varId)

/-- A concrete instance of the rule evaluator capability, used for
concrete runs: the text FREQ=DAILY is interpreted as the daily
progression from the anchor up to the inclusive bound; other rule text
yields nothing. -/
def dailyEval : RuleEvaluator := fun rule dtstart untilIncl =>
  if rule = "FREQ=DAILY" then
    ((List.range (((untilIncl - dtstart) / day).toNat + 1)).map
      (fun k => dtstart + day * k)).filter (fun t => decide (t ≤ untilIncl))
  else []

/-! ## Concrete worlds and helper definitions -/

/-- The rows the creation loop of extend_occurrences appends: one saved
row per candidate, under consecutive fresh primary keys. -/
def created_occurrences (evId : Nat) :
    Nat → List (Int × Int × EventRepeatsGenerator) → List Occurrence
  | _, [] => []
  | base, item :: rest =>
    { (occurrence_save (new_occurrence evId item base)) with
        flag_user_modification := false } ::
      created_occurrences evId (base + 1) rest

/-- Concrete world for the C1 witness: one event owning one occurrence at
day 0 and one daily generator bounded at day 2, so that the candidate at
day 1 is genuinely missing. -/
def genW : EventRepeatsGenerator :=
  { id := 2, eventId := 0, recurrence_rule := some "FREQ=DAILY",
    start := 0, end_ := 3600000000, is_all_day := false,
    repeat_end := some (2 * day) }

/-- The existing occurrence of the C1 witness world: generated at day 0
and still at its original times. -/
def occW : Occurrence :=
  { id := 1, eventId := 0, generator := some 2,
    start := 0, end_ := 3600000000, is_all_day := false,
    is_protected_from_regeneration := false, is_cancelled := false,
    is_hidden := false, cancel_reason := none,
    original_start := some 0, original_end := some 3600000000,
    flag_user_modification := false }

/-- The C1 witness world. -/
def dbW : DB :=
  { events := [{ id := 0, part_of := none, derived_from := none }],
    generators := [genW], occurrences := [occW], nextId := 10 }

/-- World for the C3 witness: one protected user-modified occurrence next
to a regeneratable one, with the daily generator of the C1 world. -/
def occP : Occurrence :=
  { id := 3, eventId := 0, generator := some 2,
    start := day, end_ := day + 1, is_all_day := false,
    is_protected_from_regeneration := true, is_cancelled := false,
    is_hidden := false, cancel_reason := none,
    original_start := some day, original_end := some (day + 3600000000),
    flag_user_modification := false }

/-- The C3 witness world. -/
def dbP : DB :=
  { events := [{ id := 0, part_of := none, derived_from := none }],
    generators := [genW], occurrences := [occW, occP], nextId := 10 }

/-- World for the C10 witness: a child event with no occurrences of its
own whose parent owns the day-0 occurrence, plus a daily generator on
the child. -/
def genC : EventRepeatsGenerator :=
  { id := 7, eventId := 5, recurrence_rule := some "FREQ=DAILY",
    start := 0, end_ := 3600000000, is_all_day := false,
    repeat_end := some (2 * day) }

/-- The C10 witness world: event 5 is part_of event 0, which owns occW. -/
def dbC : DB :=
  { events := [{ id := 0, part_of := none, derived_from := none },
               { id := 5, part_of := some 0, derived_from := none }],
    generators := [genC], occurrences := [occW], nextId := 20 }

/-- Equality of fallible results is decidable, so concrete runs of the
save and clone paths can be checked by evaluation. -/
instance exceptDecEq {ε α : Type} [DecidableEq ε] [DecidableEq α] :
    DecidableEq (Except ε α)
  | .error x, .error y =>
    if h : x = y then isTrue (h ▸ rfl)
    else isFalse (by intro hc; cases hc; exact h rfl)
  | .error _, .ok _ => isFalse (by intro hc; cases hc)
  | .ok _, .error _ => isFalse (by intro hc; cases hc)
  | .ok x, .ok y =>
    if h : x = y then isTrue (h ▸ rfl)
    else isFalse (by intro hc; cases hc; exact h rfl)

/-- The zero-duration generator of the C6 counterexample: a saved
single-instance generator whose end equals its start. -/
def genZ : EventRepeatsGenerator :=
  { id := 4, eventId := 0, recurrence_rule := none,
    start := 0, end_ := 0, is_all_day := false, repeat_end := none }

/-- The state make_variation leaves behind after a successful clone: the
own rows of the split event starting at or after the split start are
deleted. -/
def variation_kept (evId : Nat) (occ : Occurrence) (dbB : DB) : DB :=
  let kept := dbB.occurrences.filter
    (fun o => !(o.eventId == evId && decide (occ.start ≤ o.start)))
  { dbB with occurrences := kept }

/-- The split instance of the C8 counterexample: a detached occurrence
whose primary key 99 matches nothing in the timeline of event 0. -/
def occX : Occurrence :=
  { id := 99, eventId := 0, generator := none,
    start := 0, end_ := 0, is_all_day := false,
    is_protected_from_regeneration := false, is_cancelled := false,
    is_hidden := false, cancel_reason := none,
    original_start := none, original_end := none,
    flag_user_modification := false }

/-- The manual occurrence event 0 owns in the C8 counterexample world. -/
def occM : Occurrence :=
  { id := 5, eventId := 0, generator := none,
    start := 10 * day, end_ := 10 * day + 3600000000, is_all_day := false,
    is_protected_from_regeneration := true, is_cancelled := false,
    is_hidden := false, cancel_reason := none,
    original_start := some (10 * day),
    original_end := some (10 * day + 3600000000),
    flag_user_modification := false }

/-- The C8 counterexample world. -/
def dbM : DB :=
  { events := [{ id := 0, part_of := none, derived_from := none }],
    generators := [], occurrences := [occM], nextId := 100 }

/-- The daily generator of the C9 world: four occurrences, days 0 to 3,
bounded by repeat_end at day 4. -/
def genV : EventRepeatsGenerator :=
  { id := 1, eventId := 0, recurrence_rule := some "FREQ=DAILY",
    start := 0, end_ := 3600000000, is_all_day := false,
    repeat_end := some (4 * day) }

/-- The C9 world before materialisation. -/
def dbV0 : DB :=
  { events := [{ id := 0, part_of := none, derived_from := none }],
    generators := [genV], occurrences := [], nextId := 10 }

/-- The C9 world with the four generated occurrences materialised. -/
def dbV : DB := regenerate_occurrences dailyEval dbV0 0 0 none

/-- The day-2 occurrence of the C9 world, at which the variation splits. -/
def occSplit : Occurrence :=
  { id := 12, eventId := 0, generator := some 1,
    start := 2 * day, end_ := 2 * day + 3600000000, is_all_day := false,
    is_protected_from_regeneration := false, is_cancelled := false,
    is_hidden := false, cancel_reason := none,
    original_start := some (2 * day),
    original_end := some (2 * day + 3600000000),
    flag_user_modification := false }

/-! ## Characterisation lemmas -/

/-- Membership in missing_occurrence_data: a yielded triple comes from a
generator of the event, its pair comes from that generator, and neither
its start nor its end hits the identity sets. -/
theorem mem_missing_occurrence_data {E : RuleEvaluator} {db : DB}
    {evId : Nat} {now : Int} {until? : Option Int}
    {s e : Int} {g : EventRepeatsGenerator}
    (h : (s, e, g) ∈ missing_occurrence_data E db evId now until?) :
    g ∈ repeat_generators db evId ∧ (s, e) ∈ generate E g now until? ∧
    s ∉ (get_occurrence_times_for_event db evId).1 ∧
    e ∉ (get_occurrence_times_for_event db evId).2 := by
  unfold missing_occurrence_data at h
  rw [List.mem_flatMap] at h
  obtain ⟨g0, hg0, hmem⟩ := h
  rw [List.mem_filterMap] at hmem
  obtain ⟨se, hse, heq⟩ := hmem
  by_cases hc : se.1 ∈ (get_occurrence_times_for_event db evId).1 ∨
      se.2 ∈ (get_occurrence_times_for_event db evId).2
  · rw [if_pos hc] at heq
    exact absurd heq (by simp)
  · rw [if_neg hc] at heq
    simp only [Option.some.injEq, Prod.mk.injEq] at heq
    obtain ⟨h1, h2, h3⟩ := heq
    subst h1 h2 h3
    push_neg at hc
    exact ⟨hg0, by simpa using hse, hc.1, hc.2⟩

/-- C1. For every event and every bound, no tuple yielded by
missing_occurrence_data has a start equal to an existing identity-set
start value or an end equal to an existing identity-set end value, the
identity sets being the naive original_start and original_end values
(with start and end fallback when the originals are null) of the current
effective timeline of the event. -/
theorem missing_data_avoids_existing_times (E : RuleEvaluator) (db : DB)
    (evId : Nat) (now : Int) (until? : Option Int)
    (s e : Int) (g : EventRepeatsGenerator)
    (h : (s, e, g) ∈ missing_occurrence_data E db evId now until?) :
    s ∉ (get_occurrence_times_for_event db evId).1 ∧
    e ∉ (get_occurrence_times_for_event db evId).2 :=
  ⟨(mem_missing_occurrence_data h).2.2.1, (mem_missing_occurrence_data h).2.2.2⟩

/-- C1 witness: in the concrete world the day-1 candidate is yielded and
the theorem applies to it. -/
theorem missing_data_avoids_existing_times_witness :
    day ∉ (get_occurrence_times_for_event dbW 0).1 ∧
    (day + 3600000000) ∉ (get_occurrence_times_for_event dbW 0).2 :=
  missing_data_avoids_existing_times dailyEval dbW 0 0 none
    day (day + 3600000000) genW (by decide)

/-- The creation loop appends exactly the created rows and touches
nothing else: events, generators and the existing occurrence rows are
unchanged, and the key counter advances by the number of candidates. -/
theorem create_missing_spec (evId : Nat) :
    ∀ (items : List (Int × Int × EventRepeatsGenerator)) (db : DB),
    (create_missing evId db items).occurrences =
        db.occurrences ++ created_occurrences evId db.nextId items ∧
    (create_missing evId db items).events = db.events ∧
    (create_missing evId db items).generators = db.generators ∧
    (create_missing evId db items).nextId = db.nextId + items.length := by
  intro items
  induction items with
  | nil => intro db; simp [create_missing, created_occurrences]
  | cons item rest ih =>
    intro db
    obtain ⟨h1, h2, h3, h4⟩ := ih (db_create_occurrence db (new_occurrence evId item))
    refine ⟨?_, ?_, ?_, ?_⟩
    · rw [create_missing, h1]
      simp [db_create_occurrence, created_occurrences]
    · rw [create_missing, h2]
      simp [db_create_occurrence]
    · rw [create_missing, h3]
      simp [db_create_occurrence]
    · rw [create_missing, h4]
      simp [db_create_occurrence]
      omega

/-- Field shape of a created row: the original copies equal the freshly
computed start and end, the source generator and its all-day flag are
recorded, and the row is unprotected. -/
theorem created_row_fields (evId : Nat)
    (item : Int × Int × EventRepeatsGenerator) (base : Nat) :
    let o : Occurrence := { (occurrence_save (new_occurrence evId item base)) with
        flag_user_modification := false }
    o.original_start = some item.1 ∧ o.original_end = some item.2.1 ∧
    o.generator = some item.2.2.id ∧
    o.is_protected_from_regeneration = false ∧
    o.eventId = evId ∧ o.id = base ∧
    o.is_all_day = item.2.2.is_all_day := by
  by_cases h : item.2.2.is_all_day <;>
    simp [occurrence_save, new_occurrence, h]

/-- Every created row belongs to the event and is regeneratable
(generated and unprotected). -/
theorem mem_created_occurrences (evId : Nat) :
    ∀ (items : List (Int × Int × EventRepeatsGenerator)) (base : Nat)
    (o : Occurrence), o ∈ created_occurrences evId base items →
    o.eventId = evId ∧ regeneratable o = true := by
  intro items
  induction items with
  | nil => intro base o h; simp [created_occurrences] at h
  | cons item rest ih =>
    intro base o h
    rw [created_occurrences, List.mem_cons] at h
    rcases h with h | h
    · subst h
      by_cases hd : item.2.2.is_all_day <;>
        simp [occurrence_save, new_occurrence, regeneratable, hd]
    · exact ih (base + 1) o h

/-- The creation loop creates exactly one row per candidate. -/
theorem created_occurrences_length (evId : Nat) :
    ∀ (items : List (Int × Int × EventRepeatsGenerator)) (base : Nat),
    (created_occurrences evId base items).length = items.length := by
  intro items
  induction items with
  | nil => intro base; simp [created_occurrences]
  | cons item rest ih => intro base; simp [created_occurrences, ih]

/-- The stored (start, end) pair of a created row is a function of the
candidate alone (the primary key plays no part): the freshly computed
pair, day-normalised when the source generator is all-day. -/
theorem created_occurrences_pairs (evId : Nat) :
    ∀ (items : List (Int × Int × EventRepeatsGenerator)) (base : Nat),
    (created_occurrences evId base items).map (fun o => (o.start, o.end_)) =
      items.map (fun it =>
        if it.2.2.is_all_day then (zero_datetime it.1, zero_datetime it.2.1)
        else (it.1, it.2.1)) := by
  intro items
  induction items with
  | nil => intro base; simp [created_occurrences]
  | cons item rest ih =>
    intro base
    rw [created_occurrences, List.map_cons, List.map_cons, ih (base + 1)]
    congr 1
    by_cases h : item.2.2.is_all_day <;>
      simp [occurrence_save, new_occurrence, h]

/-- C4. extend_occurrences deletes nothing and modifies no existing row:
its result keeps the prior rows as a prefix and appends exactly one
created row per candidate yielded by missing_occurrence_data, each
carrying the freshly computed start and end as its original copies, its
source generator, and an unset protection flag; the returned count is the
number of candidates. -/
theorem extend_occurrences_additive (E : RuleEvaluator) (db : DB)
    (evId : Nat) (now : Int) (until? : Option Int) :
    (extend_occurrences E db evId now until?).1.occurrences =
        db.occurrences ++ created_occurrences evId db.nextId
          (missing_occurrence_data E db evId now until?) ∧
    (extend_occurrences E db evId now until?).2 =
        (missing_occurrence_data E db evId now until?).length ∧
    (created_occurrences evId db.nextId
        (missing_occurrence_data E db evId now until?)).length =
        (missing_occurrence_data E db evId now until?).length ∧
    (∀ o ∈ created_occurrences evId db.nextId
        (missing_occurrence_data E db evId now until?),
      o.eventId = evId ∧ o.generator.isSome = true ∧
      o.is_protected_from_regeneration = false) ∧
    (∀ (base : Nat) (item : Int × Int × EventRepeatsGenerator),
      ({ (occurrence_save (new_occurrence evId item base)) with
          flag_user_modification := false } : Occurrence).original_start
            = some item.1 ∧
      ({ (occurrence_save (new_occurrence evId item base)) with
          flag_user_modification := false } : Occurrence).original_end
            = some item.2.1 ∧
      ({ (occurrence_save (new_occurrence evId item base)) with
          flag_user_modification := false } : Occurrence).generator
            = some item.2.2.id) := by
  refine ⟨?_, rfl, ?_, ?_, ?_⟩
  · exact (create_missing_spec evId _ db).1
  · exact created_occurrences_length evId _ db.nextId
  · intro o ho
    obtain ⟨h1, h2⟩ := mem_created_occurrences evId _ _ o ho
    refine ⟨h1, ?_, ?_⟩
    · simp [regeneratable] at h2
      exact h2.1
    · simp [regeneratable] at h2
      exact h2.2
  · intro base item
    exact ⟨(created_row_fields evId item base).1,
           (created_row_fields evId item base).2.1,
           (created_row_fields evId item base).2.2.1⟩

/-- C4 witness: the additivity law applied to the concrete world, where
exactly the day-1 candidate is missing. -/
theorem extend_occurrences_additive_witness :
    (extend_occurrences dailyEval dbW 0 0 none).2 =
      (missing_occurrence_data dailyEval dbW 0 0 none).length ∧
    (extend_occurrences dailyEval dbW 0 0 none).1.occurrences =
      dbW.occurrences ++ created_occurrences 0 dbW.nextId
        (missing_occurrence_data dailyEval dbW 0 0 none) :=
  ⟨(extend_occurrences_additive dailyEval dbW 0 0 none).2.1,
   (extend_occurrences_additive dailyEval dbW 0 0 none).1⟩

/-! ## Idempotence of regeneration -/

/-- The effective timeline only reads the event and occurrence tables:
two states agreeing on them produce the same timeline. -/
theorem occurrence_listFuel_congr {db db2 : DB}
    (hev : db.events = db2.events) (hoc : db.occurrences = db2.occurrences) :
    ∀ (fuel evId : Nat),
    occurrence_listFuel db fuel evId = occurrence_listFuel db2 fuel evId := by
  intro fuel
  induction fuel with
  | zero => intro evId; rfl
  | succ n ih =>
    intro evId
    have h1 : own_occurrences db evId = own_occurrences db2 evId := by
      simp [own_occurrences, hoc]
    have h2 : visible_part_of db evId = visible_part_of db2 evId := by
      simp [visible_part_of, lookup_event, hev]
    simp only [occurrence_listFuel, h1, h2]
    cases h : (own_occurrences db2 evId).isEmpty
    · simp [h]
    · simp only [h, if_true]
      cases hv : visible_part_of db2 evId
      · rfl
      · exact ih _

/-- missing_occurrence_data only reads the event, generator and
occurrence tables (not the key counter). -/
theorem missing_occurrence_data_congr (E : RuleEvaluator) {db db2 : DB}
    (hev : db.events = db2.events) (hgen : db.generators = db2.generators)
    (hoc : db.occurrences = db2.occurrences) (evId : Nat) (now : Int)
    (until? : Option Int) :
    missing_occurrence_data E db evId now until? =
    missing_occurrence_data E db2 evId now until? := by
  have hlist : ∀ e, occurrence_list db e = occurrence_list db2 e := by
    intro e
    unfold occurrence_list
    rw [hev]
    exact occurrence_listFuel_congr hev hoc _ e
  unfold missing_occurrence_data get_occurrence_times_for_event repeat_generators
  rw [hgen, hlist]

/-- C2. regenerate_occurrences is idempotent: running it twice in
succession with the same bound and the same clock, with no intervening
mutation, leaves the event with the same (start, end) sequence, hence
the same occurrence count and the same (start, end) multiset, after each
run. -/
theorem regenerate_occurrences_idempotent (E : RuleEvaluator) (db : DB)
    (evId : Nat) (now : Int) (until? : Option Int) :
    ((own_occurrences (regenerate_occurrences E db evId now until?) evId).map
        (fun o => (o.start, o.end_)) =
      (own_occurrences (regenerate_occurrences E
          (regenerate_occurrences E db evId now until?) evId now until?) evId).map
        (fun o => (o.start, o.end_))) ∧
    (own_occurrences (regenerate_occurrences E db evId now until?) evId).length =
      (own_occurrences (regenerate_occurrences E
          (regenerate_occurrences E db evId now until?) evId now until?) evId).length ∧
    Multiset.ofList ((own_occurrences (regenerate_occurrences E db evId now until?) evId).map
        (fun o => (o.start, o.end_))) =
      Multiset.ofList ((own_occurrences (regenerate_occurrences E
          (regenerate_occurrences E db evId now until?) evId now until?) evId).map
        (fun o => (o.start, o.end_))) := by
  set A := delete_regeneratable db evId with hA
  set m := missing_occurrence_data E A evId now until? with hm
  have hdb1 : regenerate_occurrences E db evId now until? = create_missing evId A m := rfl
  set db1 := create_missing evId A m with hdb1def
  obtain ⟨hocc1, hev1, hgen1, hnext1⟩ := create_missing_spec evId m A
  -- the second delete erases exactly the rows the first extend created
  set B := delete_regeneratable db1 evId with hB
  have hBocc : B.occurrences = A.occurrences := by
    have : B.occurrences = db1.occurrences.filter
        (fun o => !(o.eventId == evId && regeneratable o)) := rfl
    rw [this, hocc1, List.filter_append]
    have hleft : A.occurrences.filter
        (fun o => !(o.eventId == evId && regeneratable o)) = A.occurrences := by
      rw [List.filter_eq_self]
      intro o ho
      have : o ∈ db.occurrences.filter
          (fun o => !(o.eventId == evId && regeneratable o)) := ho
      exact (List.mem_filter.mp this).2
    have hright : (created_occurrences evId A.nextId m).filter
        (fun o => !(o.eventId == evId && regeneratable o)) = [] := by
      rw [List.filter_eq_nil_iff]
      intro o ho
      obtain ⟨h1, h2⟩ := mem_created_occurrences evId m A.nextId o ho
      simp [h1, h2]
    rw [hleft, hright, List.append_nil]
  have hBev : B.events = A.events := by
    have : B.events = db1.events := rfl
    rw [this, hev1]
  have hBgen : B.generators = A.generators := by
    have : B.generators = db1.generators := rfl
    rw [this, hgen1]
  -- so the second run rebuilds the same candidates
  have hm2 : missing_occurrence_data E B evId now until? = m := by
    rw [hm]
    exact missing_occurrence_data_congr E hBev hBgen hBocc evId now until?
  have hdb2 : regenerate_occurrences E db1 evId now until? =
      create_missing evId B m := by
    show (extend_occurrences E (delete_regeneratable db1 evId) evId now until?).1 = _
    unfold extend_occurrences
    rw [← hB, hm2]
  obtain ⟨hocc2, _, _, _⟩ := create_missing_spec evId m B
  -- own rows after each run: the preserved rows plus the created rows
  have hownsplit : ∀ (base : Nat) (occs : List Occurrence),
      (occs ++ created_occurrences evId base m).filter (fun o => o.eventId == evId) =
        occs.filter (fun o => o.eventId == evId) ++ created_occurrences evId base m := by
    intro base occs
    rw [List.filter_append]
    congr 1
    rw [List.filter_eq_self]
    intro o ho
    simp [(mem_created_occurrences evId m base o ho).1]
  have hown1 : own_occurrences db1 evId =
      A.occurrences.filter (fun o => o.eventId == evId) ++
        created_occurrences evId A.nextId m := by
    show db1.occurrences.filter (fun o => o.eventId == evId) = _
    rw [hocc1, hownsplit]
  have hown2 : own_occurrences (create_missing evId B m) evId =
      A.occurrences.filter (fun o => o.eventId == evId) ++
        created_occurrences evId B.nextId m := by
    show (create_missing evId B m).occurrences.filter (fun o => o.eventId == evId) = _
    rw [hocc2, hBocc, hownsplit]
  have hpairs :
      (own_occurrences db1 evId).map (fun o => (o.start, o.end_)) =
      (own_occurrences (create_missing evId B m) evId).map (fun o => (o.start, o.end_)) := by
    rw [hown1, hown2, List.map_append, List.map_append,
        created_occurrences_pairs, created_occurrences_pairs]
  refine ⟨?_, ?_, ?_⟩
  · rw [hdb1, hdb2]
    exact hpairs
  · rw [hdb1, hdb2]
    have := congrArg List.length hpairs
    simpa using this
  · rw [hdb1, hdb2, hpairs]

/-- C2 witness: idempotence applied to the concrete world with one
protected and one regeneratable occurrence. -/
theorem regenerate_occurrences_idempotent_witness :
    (own_occurrences (regenerate_occurrences dailyEval dbP 0 0 none) 0).length =
      (own_occurrences (regenerate_occurrences dailyEval
        (regenerate_occurrences dailyEval dbP 0 0 none) 0 0 none) 0).length :=
  (regenerate_occurrences_idempotent dailyEval dbP 0 0 none).2.1

/-! ## Protection is never reset -/

/-- The save path computes the stored protection flag: it is set by the
transient user-modification flag and otherwise left alone — never
cleared. -/
theorem occurrence_save_protected_eq (o : Occurrence) :
    (occurrence_save o).is_protected_from_regeneration =
      (o.flag_user_modification || o.is_protected_from_regeneration) := by
  simp only [occurrence_save]
  split_ifs <;> simp_all

/-- The save path leaves the primary key alone. -/
theorem occurrence_save_id (o : Occurrence) :
    (occurrence_save o).id = o.id := by
  simp only [occurrence_save]
  split_ifs <;> simp_all

/-- C3. No engine operation resets the protection flag: the save path
never clears it, extend_occurrences keeps every existing row untouched,
regenerate_occurrences keeps every protected row untouched, and
cancel_occurrence leaves every protected row protected; consequently the
protected rows before regeneration are a subset of the protected rows
after it. -/
theorem protection_is_never_reset (E : RuleEvaluator) (db : DB)
    (evId : Nat) (now : Int) (until? : Option Int) (occT : Occurrence)
    (hide : Bool) (reason : String) :
    (∀ o : Occurrence, o.is_protected_from_regeneration = true →
      (occurrence_save o).is_protected_from_regeneration = true) ∧
    (∀ o ∈ db.occurrences,
      o ∈ (extend_occurrences E db evId now until?).1.occurrences) ∧
    (∀ o ∈ db.occurrences, o.is_protected_from_regeneration = true →
      o ∈ (regenerate_occurrences E db evId now until?).occurrences) ∧
    (∀ o ∈ db.occurrences, o.is_protected_from_regeneration = true →
      ∃ o2 ∈ (cancel_occurrence db evId occT hide reason).occurrences,
        o2.id = o.id ∧ o2.is_protected_from_regeneration = true) ∧
    db.occurrences.filter (fun o => o.is_protected_from_regeneration) ⊆
      (regenerate_occurrences E db evId now until?).occurrences.filter
        (fun o => o.is_protected_from_regeneration) := by
  have hsave : ∀ o : Occurrence, o.is_protected_from_regeneration = true →
      (occurrence_save o).is_protected_from_regeneration = true := by
    intro o h
    rw [occurrence_save_protected_eq, h, Bool.or_true]
  have hextend : ∀ (d : DB), ∀ o ∈ d.occurrences,
      o ∈ (extend_occurrences E d evId now until?).1.occurrences := by
    intro d o ho
    have h := (create_missing_spec evId
      (missing_occurrence_data E d evId now until?) d).1
    show o ∈ (create_missing evId d _).occurrences
    rw [h]
    exact List.mem_append_left _ ho
  have hregen : ∀ o ∈ db.occurrences, o.is_protected_from_regeneration = true →
      o ∈ (regenerate_occurrences E db evId now until?).occurrences := by
    intro o ho hp
    have hdel : o ∈ (delete_regeneratable db evId).occurrences := by
      show o ∈ db.occurrences.filter _
      rw [List.mem_filter]
      exact ⟨ho, by simp [regeneratable, hp]⟩
    exact hextend (delete_regeneratable db evId) o hdel
  refine ⟨hsave, hextend db, hregen, ?_, ?_⟩
  · intro o ho hp
    unfold cancel_occurrence
    split_ifs with hmem
    · exact ⟨o, ho, rfl, hp⟩
    · set occm : Occurrence := { occT with
        is_protected_from_regeneration := true, is_cancelled := true,
        is_hidden := hide, cancel_reason := some reason } with hoccm
      set row : Occurrence := { (occurrence_save occm) with
        flag_user_modification := false } with hrow
      refine ⟨if (o.id == row.id) = true then row else o, ?_, ?_⟩
      · show _ ∈ (db_update_occurrence db occm).occurrences
        unfold db_update_occurrence
        exact List.mem_map_of_mem _ ho
      · split_ifs with hid
        · constructor
          · have h0 : o.id = row.id := by simpa using hid
            exact h0.symm
          · show row.is_protected_from_regeneration = true
            rw [hrow]
            show (occurrence_save occm).is_protected_from_regeneration = true
            rw [occurrence_save_protected_eq]
            simp [hoccm]
        · exact ⟨rfl, hp⟩
  · intro o ho
    rw [List.mem_filter] at ho ⊢
    exact ⟨hregen o ho.1 ho.2, ho.2⟩

/-- C3 witness: the protected occurrence of the concrete world survives
a regeneration untouched. -/
theorem protection_is_never_reset_witness :
    occP ∈ (regenerate_occurrences dailyEval dbP 0 0 none).occurrences :=
  (protection_is_never_reset dailyEval dbP 0 0 none occP false
    "Cancelled").2.2.1 occP (by decide) (by decide)

/-! ## Cancellation -/

/-- C7. cancel_occurrence is a silent no-op when the occurrence is not in
the effective timeline of the event; when it is, the operation persists
the occurrence with protection and cancellation set, hidden as requested
and the reason stored, while deleting nothing and leaving every other
row, the events and the generators untouched. The target is an instance
loaded from the database, so its transient user-modification flag is
unset. -/
theorem cancel_occurrence_spec (db : DB) (evId : Nat) (occ : Occurrence)
    (hide : Bool) (reason : String) :
    ((∀ o ∈ occurrence_list db evId, o.id ≠ occ.id) →
      cancel_occurrence db evId occ hide reason = db) ∧
    ((∃ o ∈ occurrence_list db evId, o.id = occ.id) →
     occ.flag_user_modification = false →
      (cancel_occurrence db evId occ hide reason).occurrences.length =
        db.occurrences.length ∧
      (cancel_occurrence db evId occ hide reason).events = db.events ∧
      (cancel_occurrence db evId occ hide reason).generators = db.generators ∧
      (∀ o ∈ db.occurrences, o.id ≠ occ.id →
        o ∈ (cancel_occurrence db evId occ hide reason).occurrences) ∧
      (∀ o2 ∈ (cancel_occurrence db evId occ hide reason).occurrences,
        o2.id = occ.id →
        o2.is_protected_from_regeneration = true ∧ o2.is_cancelled = true ∧
        o2.is_hidden = hide ∧ o2.cancel_reason = some reason)) := by
  constructor
  · intro h
    unfold cancel_occurrence
    rw [if_pos]
    rw [List.all_eq_true]
    intro o ho
    simpa using h o ho
  · intro hmem hflag
    have hcond : ((occurrence_list db evId).all (fun o => o.id != occ.id)) = false := by
      obtain ⟨o, ho, hid⟩ := hmem
      rw [List.all_eq_false]
      exact ⟨o, ho, by simp [hid]⟩
    set occm : Occurrence := { occ with
      is_protected_from_regeneration := true, is_cancelled := true,
      is_hidden := hide, cancel_reason := some reason } with hoccm
    set row : Occurrence := { (occurrence_save occm) with
      flag_user_modification := false } with hrow
    have hrowid : row.id = occ.id := by
      rw [hrow]
      show (occurrence_save occm).id = occ.id
      rw [occurrence_save_id]
    have hrowfields : row.is_protected_from_regeneration = true ∧
        row.is_cancelled = true ∧ row.is_hidden = hide ∧
        row.cancel_reason = some reason := by
      rw [hrow, hoccm]
      simp only [occurrence_save]
      have : occ.flag_user_modification = false := hflag
      split_ifs <;> simp_all
    have hres : cancel_occurrence db evId occ hide reason =
        db_update_occurrence db occm := by
      unfold cancel_occurrence
      rw [if_neg]
      rw [hcond]
      simp
    have hupd : (db_update_occurrence db occm).occurrences =
        db.occurrences.map (fun x => if x.id == row.id then row else x) := rfl
    refine ⟨?_, ?_, ?_, ?_, ?_⟩
    · rw [hres, hupd, List.length_map]
    · rw [hres]; rfl
    · rw [hres]; rfl
    · intro o ho hne
      rw [hres, hupd, List.mem_map]
      refine ⟨o, ho, ?_⟩
      show (if (o.id == row.id) = true then row else o) = o
      have hc : ¬ ((o.id == row.id) = true) := by
        rw [hrowid]
        simp [hne]
      rw [if_neg hc]
    · intro o2 ho2 hid2
      rw [hres, hupd] at ho2
      rw [List.mem_map] at ho2
      obtain ⟨x, _, hx⟩ := ho2
      by_cases hc : (x.id == row.id) = true
      · rw [if_pos hc] at hx
        rw [← hx]
        exact hrowfields
      · rw [if_neg hc] at hx
        exfalso
        apply hc
        rw [hx, hid2, hrowid]
        simp

/-- C7 witness: cancelling the unprotected generated occurrence of the
concrete world persists the expected flags, and cancelling a foreign
instance is a no-op. -/
theorem cancel_occurrence_spec_witness :
    (∀ o2 ∈ (cancel_occurrence dbP 0 occW true "Sold out").occurrences,
      o2.id = occW.id →
      o2.is_protected_from_regeneration = true ∧ o2.is_cancelled = true ∧
      o2.is_hidden = true ∧ o2.cancel_reason = some "Sold out") :=
  ((cancel_occurrence_spec dbP 0 occW true "Sold out").2
    (by refine ⟨occW, by decide, rfl⟩) (by decide)).2.2.2.2

/-! ## Effective-timeline fallback to the parent -/

/-- With any fuel left, an event owning occurrences resolves its timeline
to exactly those occurrences. -/
theorem occurrence_listFuel_of_own {db : DB} {evId : Nat} {fuel : Nat}
    (hfuel : 1 ≤ fuel) (hown : own_occurrences db evId ≠ []) :
    occurrence_listFuel db fuel evId = own_occurrences db evId := by
  cases fuel with
  | zero => omega
  | succ n =>
    simp only [occurrence_listFuel]
    rw [if_neg]
    simpa using hown

/-- C10. An event with no occurrences of its own but with a part_of
parent that has occurrences draws its effective timeline, hence the
identity sets of missing_occurrence_data, from the occurrences of the
parent; generated candidates colliding with the original times of the
parent are therefore skipped even though the event itself stores no
occurrences. -/
theorem missing_data_uses_parent_identity (E : RuleEvaluator) (db : DB)
    (e p : Nat) (ev : EventBase) (now : Int) (until? : Option Int)
    (hlookup : lookup_event db e = some ev) (hpar : ev.part_of = some p)
    (hown : own_occurrences db e = []) (hpown : own_occurrences db p ≠ []) :
    occurrence_list db e = own_occurrences db p ∧
    get_occurrence_times_for_event db e = get_occurrence_times_for_event db p ∧
    (∀ (s en : Int) (g : EventRepeatsGenerator),
      (s, en, g) ∈ missing_occurrence_data E db e now until? →
      s ∉ (get_occurrence_times_for_event db p).1 ∧
      en ∉ (get_occurrence_times_for_event db p).2) := by
  have hne : db.events ≠ [] := by
    intro hnil
    rw [lookup_event, hnil] at hlookup
    simp [List.find?] at hlookup
  have hlen : 1 ≤ db.events.length := by
    cases h : db.events with
    | nil => exact absurd h hne
    | cons a l => simp [h]
  have hvis : visible_part_of db e = some p := by
    rw [visible_part_of, hlookup]
    simpa using hpar
  have hliste : occurrence_list db e = own_occurrences db p := by
    unfold occurrence_list
    simp only [occurrence_listFuel]
    rw [if_pos (by simpa using hown), hvis]
    exact occurrence_listFuel_of_own hlen hpown
  have hlistp : occurrence_list db p = own_occurrences db p :=
    occurrence_listFuel_of_own (by omega) hpown
  have htimes : get_occurrence_times_for_event db e =
      get_occurrence_times_for_event db p := by
    unfold get_occurrence_times_for_event
    rw [hliste, hlistp]
  refine ⟨hliste, htimes, ?_⟩
  intro s en g h
  have := mem_missing_occurrence_data h
  rw [htimes] at this
  exact ⟨this.2.2.1, this.2.2.2⟩

/-- C10 witness: in the concrete world the timeline of the child event is
the occurrence list of the parent, so the day-0 candidate of the child
generator is suppressed by the parent identity set. -/
theorem missing_data_uses_parent_identity_witness :
    occurrence_list dbC 5 = own_occurrences dbC 0 ∧
    get_occurrence_times_for_event dbC 5 = get_occurrence_times_for_event dbC 0 :=
  ⟨(missing_data_uses_parent_identity dailyEval dbC 5 0
      { id := 5, part_of := some 0, derived_from := none } 0 none
      (by decide) rfl (by decide) (by decide)).1,
   (missing_data_uses_parent_identity dailyEval dbC 5 0
      { id := 5, part_of := some 0, derived_from := none } 0 none
      (by decide) rfl (by decide) (by decide)).2.1⟩

/-! ## Bound resolution and duration offset of generate -/

/-- C5 (divergence witness). generate resolves its bound to the supplied
until argument even when repeat_end is set: for the concrete daily
generator with repeat_end at day 2, generate with until at day 5 yields
starts at days 3 and 4, beyond repeat_end — the docstring of the source
(the repeat_end of the event is always respected) and the spec demand the
bound be repeat_end, but the code only consults repeat_end when no until
is supplied. -/
theorem generate_until_overrides_repeat_end :
    genW.repeat_end = some (2 * day) ∧
    (generate dailyEval genW 0 (some (5 * day))).map Prod.fst =
      [0, day, 2 * day, 3 * day, 4 * day] ∧
    (generate dailyEval genW 0 none).map Prod.fst = [0, day] := by
  constructor
  · rfl
  constructor
  · decide
  · decide

/-- C6 amended. Every pair yielded by generate has end = start plus the
constant offset the source computes as self.duration or
timedelta(days=1): the duration end - start of the generator when it is
nonzero, and one day when the duration is zero (the Python or falls
through on a zero timedelta). -/
theorem generate_end_is_start_plus_offset (E : RuleEvaluator)
    (g : EventRepeatsGenerator) (now : Int) (until? : Option Int)
    (s e : Int) (h : (s, e) ∈ generate E g now until?) :
    e = s + (if duration g ≠ 0 then duration g else day) := by
  unfold generate at h
  rw [List.mem_map] at h
  obtain ⟨t, _, heq⟩ := h
  simp only [Prod.mk.injEq] at heq
  obtain ⟨h1, h2⟩ := heq
  subst h1
  exact h2.symm

/-- C6 counterexample: the zero-duration generator passes save unchanged,
yet its single generated pair ends one day after its start, not zero
microseconds after, so the constant offset is not end - start when that
difference is zero. -/
theorem generate_zero_duration_pair_is_one_day :
    generator_save genZ = .ok genZ ∧
    duration genZ = 0 ∧
    generate dailyEval genZ 0 none = [(0, day)] ∧
    (0 : Int) + duration genZ ≠ day := by
  refine ⟨by decide, by decide, by decide, by decide⟩

/-- C6 witness: the amended offset law applied to the day-0 pair of the
concrete daily generator. -/
theorem generate_end_is_start_plus_offset_witness :
    (3600000000 : Int) = 0 + (if duration genW ≠ 0 then duration genW else day) :=
  generate_end_is_start_plus_offset dailyEval genW 0 none 0 3600000000 (by decide)

/-! ## Variation: what cloning leaves alone -/

/-- Filtering by a stronger predicate first does not change a filter: if
p implies q pointwise, filtering by q and then p equals filtering by p. -/
theorem filter_filter_of_imp {α : Type} (l : List α) (p q : α → Bool)
    (h : ∀ a, p a = true → q a = true) :
    (l.filter q).filter p = l.filter p := by
  rw [List.filter_filter]
  refine List.filter_congr ?_
  intro x _
  cases hp : p x
  · simp
  · simp [h x hp]

/-- The save path leaves the owning event alone. -/
theorem occurrence_save_eventId (o : Occurrence) :
    (occurrence_save o).eventId = o.eventId := by
  simp only [occurrence_save]
  split_ifs <;> simp_all

/-- Clearing the transient flag for persistence leaves the owning event
alone. -/
theorem persisted_row_eventId (o : Occurrence) :
    ({ (occurrence_save o) with flag_user_modification := false } :
      Occurrence).eventId = o.eventId :=
  occurrence_save_eventId o

/-- Rows of events other than the destination pass through one
occurrence-clone step unchanged, as do the event and generator tables. -/
theorem clone_occurrence_to_spec (db : DB) (dstId : Nat) (o : Occurrence) :
    (clone_occurrence_to db dstId o).events = db.events ∧
    (clone_occurrence_to db dstId o).generators = db.generators ∧
    (clone_occurrence_to db dstId o).occurrences.filter
        (fun x => !(x.eventId == dstId)) =
      db.occurrences.filter (fun x => !(x.eventId == dstId)) := by
  refine ⟨rfl, rfl, ?_⟩
  show (db.occurrences ++ [_]).filter _ = _
  rw [List.filter_append]
  have h2 : (occurrence_save { o with id := db.nextId, eventId := dstId }).eventId
      = dstId :=
    occurrence_save_eventId { o with id := db.nextId, eventId := dstId }
  simp [persisted_row_eventId, h2]

/-- The whole occurrence-clone loop of clone_event_relationships
preserves the rows of other events and the event and generator tables. -/
theorem clone_occurrences_loop_spec (dstId : Nat) :
    ∀ (os : List Occurrence) (db : DB),
    (clone_occurrences_loop dstId db os).events = db.events ∧
    (clone_occurrences_loop dstId db os).generators = db.generators ∧
    (clone_occurrences_loop dstId db os).occurrences.filter
        (fun x => !(x.eventId == dstId)) =
      db.occurrences.filter (fun x => !(x.eventId == dstId)) := by
  intro os
  induction os with
  | nil => intro db; exact ⟨rfl, rfl, rfl⟩
  | cons o rest ih =>
    intro db
    obtain ⟨h1, h2, h3⟩ := ih (clone_occurrence_to db dstId o)
    obtain ⟨g1, g2, g3⟩ := clone_occurrence_to_spec db dstId o
    exact ⟨by rw [clone_occurrences_loop, h1, g1],
           by rw [clone_occurrences_loop, h2, g2],
           by rw [clone_occurrences_loop, h3, g3]⟩

/-- Regenerating the destination event touches only its own rows: rows of
every other event, and the event table, pass through unchanged. -/
theorem regenerate_occurrences_other_rows (E : RuleEvaluator) (db : DB)
    (dstId : Nat) (now : Int) (until? : Option Int) :
    (regenerate_occurrences E db dstId now until?).events = db.events ∧
    (regenerate_occurrences E db dstId now until?).occurrences.filter
        (fun x => !(x.eventId == dstId)) =
      db.occurrences.filter (fun x => !(x.eventId == dstId)) := by
  set A := delete_regeneratable db dstId with hA
  set m := missing_occurrence_data E A dstId now until? with hm
  obtain ⟨h1, h2, _, _⟩ := create_missing_spec dstId m A
  have hres : regenerate_occurrences E db dstId now until? =
      create_missing dstId A m := rfl
  constructor
  · rw [hres, h2]
    rfl
  · rw [hres, h1, List.filter_append]
    have hcreated : (created_occurrences dstId A.nextId m).filter
        (fun x => !(x.eventId == dstId)) = [] := by
      rw [List.filter_eq_nil_iff]
      intro o ho
      simp [(mem_created_occurrences dstId m A.nextId o ho).1]
    rw [hcreated, List.append_nil]
    show (db.occurrences.filter _).filter _ = _
    refine filter_filter_of_imp db.occurrences _ _ ?_
    intro o h
    cases hd : (o.eventId == dstId)
    · simp [regeneratable, hd]
    · rw [hd] at h
      simp at h

/-- One generator-clone step (a save that re-regenerates the destination)
preserves the rows of other events and the event table, when it
succeeds. -/
theorem clone_generator_to_spec (E : RuleEvaluator) (db : DB)
    (dstId : Nat) (g : EventRepeatsGenerator) (now : Int) (db2 : DB)
    (h : clone_generator_to E db dstId g now = .ok db2) :
    db2.events = db.events ∧
    db2.occurrences.filter (fun x => !(x.eventId == dstId)) =
      db.occurrences.filter (fun x => !(x.eventId == dstId)) := by
  unfold clone_generator_to at h
  cases hsave : generator_save { g with id := db.nextId, eventId := dstId } with
  | error e => rw [hsave] at h; simp [bind, Except.bind] at h
  | ok g2 =>
    rw [hsave] at h
    simp only [bind, Except.bind, pure, Except.pure, Except.ok.injEq] at h
    subst h
    set dbg : DB := { db with generators := db.generators ++ [g2],
                              nextId := db.nextId + 1 } with hdbg
    obtain ⟨r1, r2⟩ := regenerate_occurrences_other_rows E dbg dstId now none
    exact ⟨by rw [r1], by rw [r2]⟩

/-- The whole generator-clone loop preserves the rows of other events and
the event table, when it succeeds. -/
theorem clone_generators_loop_spec (E : RuleEvaluator) (dstId : Nat)
    (now : Int) :
    ∀ (gs : List EventRepeatsGenerator) (db db2 : DB),
    clone_generators_loop E dstId now db gs = .ok db2 →
    db2.events = db.events ∧
    db2.occurrences.filter (fun x => !(x.eventId == dstId)) =
      db.occurrences.filter (fun x => !(x.eventId == dstId)) := by
  intro gs
  induction gs with
  | nil =>
    intro db db2 h
    rw [clone_generators_loop] at h
    simp only [Except.ok.injEq] at h
    subst h
    exact ⟨rfl, rfl⟩
  | cons g rest ih =>
    intro db db2 h
    rw [clone_generators_loop] at h
    cases hstep : clone_generator_to E db dstId g now with
    | error e => rw [hstep] at h; simp [bind, Except.bind] at h
    | ok dbm =>
      rw [hstep] at h
      simp only [bind, Except.bind] at h
      obtain ⟨h1, h2⟩ := ih dbm db2 h
      obtain ⟨g1, g2⟩ := clone_generator_to_spec E db dstId g now dbm hstep
      exact ⟨by rw [h1, g1], by rw [h2, g2]⟩

/-- clone_event_relationships preserves the rows of other events and the
event table, when it succeeds. -/
theorem clone_event_relationships_spec (E : RuleEvaluator) (db : DB)
    (srcId dstId : Nat) (now : Int) (db2 : DB)
    (h : clone_event_relationships E db srcId dstId now = .ok db2) :
    db2.events = db.events ∧
    db2.occurrences.filter (fun x => !(x.eventId == dstId)) =
      db.occurrences.filter (fun x => !(x.eventId == dstId)) := by
  unfold clone_event_relationships at h
  set db1 := clone_occurrences_loop dstId db
    (db.occurrences.filter (fun o =>
      o.eventId == srcId && (o.generator.isNone || o.is_protected_from_regeneration)))
    with hdb1
  obtain ⟨c1, c2, c3⟩ := clone_occurrences_loop_spec dstId _ db
  obtain ⟨l1, l2⟩ := clone_generators_loop_spec E dstId now _ db1 db2 h
  rw [← hdb1] at c1 c2 c3
  exact ⟨by rw [l1, c1], by rw [l2, c3]⟩

/-- C8 amended. make_variation performs no membership check and raises
no domain error: even when the split occurrence is not in the effective
timeline of the event, the operation proceeds — it creates the variation
event derived from this one and deletes the own occurrences of the event
at or after the split start (the only failure channel is a
GeneratorException from re-saving a cloned generator, independent of
membership). -/
theorem make_variation_ignores_membership (E : RuleEvaluator) (db : DB)
    (evId : Nat) (occ : Occurrence) (now : Int)
    (_hnm : ∀ o ∈ occurrence_list db evId, o.id ≠ occ.id)
    (hfresh : evId ≠ db.nextId) :
    match make_variation E db evId occ now with
    | .error _ => True
    | .ok r =>
        r.2 = db.nextId ∧
        r.1.events = db.events ++
          [{ id := db.nextId, part_of := none, derived_from := some evId }] ∧
        own_occurrences r.1 evId = (own_occurrences db evId).filter
          (fun o => !(decide (occ.start ≤ o.start))) := by
  set dbA : DB := { db with
      events := db.events ++ [{ id := db.nextId, part_of := none,
                                derived_from := some evId }],
      nextId := db.nextId + 1 } with hdbA
  have hmv : make_variation E db evId occ now =
      Except.bind (clone_event_relationships E dbA evId db.nextId now)
        (fun dbB => Except.ok (variation_kept evId occ dbB, db.nextId)) := rfl
  rw [hmv]
  cases hc : clone_event_relationships E dbA evId db.nextId now with
  | error e => exact trivial
  | ok dbB =>
    obtain ⟨s1, s2⟩ :=
      clone_event_relationships_spec E dbA evId db.nextId now dbB hc
    show db.nextId = db.nextId ∧
      (variation_kept evId occ dbB).events = db.events ++
        [{ id := db.nextId, part_of := none, derived_from := some evId }] ∧
      own_occurrences (variation_kept evId occ dbB) evId =
        (own_occurrences db evId).filter
          (fun o => !(decide (occ.start ≤ o.start)))
    refine ⟨rfl, ?_, ?_⟩
    · show dbB.events = _
      rw [s1]
    · show (dbB.occurrences.filter
          (fun o => !(o.eventId == evId && decide (occ.start ≤ o.start)))).filter
            (fun o => o.eventId == evId) = _
      rw [List.filter_filter]
      have hpt : ∀ o ∈ dbB.occurrences,
          ((o.eventId == evId) &&
            !(o.eventId == evId && decide (occ.start ≤ o.start))) =
          ((fun x => !(decide (occ.start ≤ x.start))) o &&
            (fun x => x.eventId == evId) o) := by
        intro o _
        cases he : (o.eventId == evId) <;>
          cases hl : (decide (occ.start ≤ o.start)) <;> simp [he, hl]
      rw [List.filter_congr hpt, ← List.filter_filter]
      have hsub : ∀ x : Occurrence, (x.eventId == evId) = true →
          (!(x.eventId == db.nextId)) = true := by
        intro x hx
        have hxe : x.eventId = evId := by simpa using hx
        simp only [hxe, Bool.not_eq_eq_eq_not, Bool.not_true, beq_eq_false_iff_ne]
        exact hfresh
      have hB : dbB.occurrences.filter (fun x => x.eventId == evId) =
          db.occurrences.filter (fun x => x.eventId == evId) := by
        rw [← filter_filter_of_imp dbB.occurrences _ _ hsub, s2,
            filter_filter_of_imp dbA.occurrences _ _ hsub]
      rw [hB]
      rfl

/-- C8 counterexample: splitting event 0 at the foreign instance (whose
key 99 is not in the timeline, which holds only key 5) does not fail and
does not abort without state change — the call returns the variation
event 100, the event table grows, and the own occurrence of event 0 is
deleted. -/
theorem make_variation_nonmember_proceeds :
    (occurrence_list dbM 0).map (fun o => o.id) = [5] ∧
    occX.id = 99 ∧
    ((make_variation dailyEval dbM 0 occX 0).toOption.map (fun r =>
      (r.1.events.length, own_occurrences r.1 0, r.2))) = some (2, [], 100) := by
  refine ⟨by decide, by decide, by decide⟩

/-- C8 witness: the amended theorem applied to the counterexample world,
where the clone path succeeds. -/
theorem make_variation_ignores_membership_witness :
    match make_variation dailyEval dbM 0 occX 0 with
    | .error _ => True
    | .ok r =>
        r.2 = dbM.nextId ∧
        r.1.events = dbM.events ++
          [{ id := dbM.nextId, part_of := none, derived_from := some 0 }] ∧
        own_occurrences r.1 0 = (own_occurrences dbM 0).filter
          (fun o => !(decide (occX.start ≤ o.start))) :=
  make_variation_ignores_membership dailyEval dbM 0 occX 0
    (by decide) (by decide)

/-! ## Variation does not truncate the original generators -/

/-- C9 (divergence witness). Splitting the four-occurrence daily event at
its day-2 occurrence deletes the own occurrences at or after day 2, but
leaves the generator of the original untouched (the source assigns
self.end_repeat, which is not a model field of EventBase, so nothing is
persisted and no generator is truncated): the very next regeneration of
the original recreates the occurrences at days 2 and 3, at and after the
split start — the claim says the repetition of the original stops at the
split start. -/
theorem make_variation_then_regenerate_recreates_tail :
    occSplit ∈ occurrence_list dbV 0 ∧
    ((make_variation dailyEval dbV 0 occSplit 0).toOption.map (fun r =>
      (repeat_generators r.1 0,
       (own_occurrences r.1 0).map (fun o => o.start),
       (own_occurrences (regenerate_occurrences dailyEval r.1 0 0 none) 0).map
         (fun o => o.start)))) =
      some ([genV], [0, day], [0, day, 2 * day, 3 * day]) := by
  refine ⟨by decide, by decide⟩

end IcekitEvents
